import Mathlib

/-!
Shallow embedding of the ARP scanner (package `arp`, file `arp.go`) and
verification of the frozen claims about it.

Conventions of the embedding:
* Go byte slices become `List (Fin 256)`; 4-byte IPv4 addresses and masks
  (the `To4()` form and the trailing 4 bytes of the mask, which is all the
  Go code ever reads) become the record `IPv4`.
* Go `uint32` arithmetic becomes `Nat` arithmetic with explicit `% 2 ^ 32`
  where the source can wrap.
* Go errors become their message `String`, exactly as written in the source
  (including the typo "unkown").
* The environment (host interface table, pcap handle behaviour, frames the
  listener goroutine processes) is passed in explicitly.
-/

/-- One octet of an address, mirroring a Go `byte`. -/
abbrev Byte := Fin 256

/-- A 4-byte IPv4 address or mask, as produced by `net.IP.To4` resp. the
trailing four bytes of a `net.IPMask` (the only bytes `Scan` keeps). -/
structure IPv4 where
  b0 : Byte
  b1 : Byte
  b2 : Byte
  b3 : Byte
deriving DecidableEq

/-- Big-endian 32-bit read of the four octets: `binary.BigEndian.Uint32`. -/
def IPv4.toUint32 (a : IPv4) : Nat :=
  a.b0.val * 16777216 + a.b1.val * 65536 + a.b2.val * 256 + a.b3.val

/-- Big-endian 32-bit write into four octets: `binary.BigEndian.PutUint32`. -/
def IPv4.ofUint32 (n : Nat) : IPv4 :=
  ⟨⟨n / 16777216 % 256, Nat.mod_lt _ (by norm_num)⟩,
   ⟨n / 65536 % 256, Nat.mod_lt _ (by norm_num)⟩,
   ⟨n / 256 % 256, Nat.mod_lt _ (by norm_num)⟩,
   ⟨n % 256, Nat.mod_lt _ (by norm_num)⟩⟩

theorem IPv4.toUint32_lt (a : IPv4) : a.toUint32 < 2 ^ 32 := by
  have h0 := a.b0.isLt
  have h1 := a.b1.isLt
  have h2 := a.b2.isLt
  have h3 := a.b3.isLt
  unfold IPv4.toUint32
  omega

/-- The loop body of `ips` in `arp.go`:

    for mask < 0xffffffff {
        var buf [4]byte
        binary.BigEndian.PutUint32(buf[:], num)
        out = append(out, net.IP(buf[:]))
        mask++
        num++
    }

`num` and `mask` are Go `uint32` variables, so the increments wrap at
`2 ^ 32` (the wrap never fires while the loop runs, which the closed-form
lemma below makes precise). -/
def ipsFrom (num mask : Nat) : List IPv4 :=
  if h : mask < 0xffffffff then
    IPv4.ofUint32 num :: ipsFrom ((num + 1) % 2 ^ 32) ((mask + 1) % 2 ^ 32)
  else []
termination_by 0xffffffff - mask
decreasing_by
  have : (mask + 1) % 2 ^ 32 = mask + 1 := Nat.mod_eq_of_lt (by omega)
  omega

/-- The function `ips` of `arp.go`: read address and mask big-endian,
mask the address down to the network base, then emit and increment until
the incremented mask reaches all-ones. -/
def ips (ip mask : IPv4) : List IPv4 :=
  ipsFrom (ip.toUint32 &&& mask.toUint32) mask.toUint32

/-- Closed form of the emission loop: starting from counters `num` (below
`2 ^ 32`) and `mask`, the loop emits `0xffffffff - mask` consecutive
values `num, num + 1, …` reduced mod `2 ^ 32`. -/
theorem ipsFrom_eq_rangeMap :
    ∀ fuel num mask, num < 2 ^ 32 → mask < 2 ^ 32 → fuel = 0xffffffff - mask →
      ipsFrom num mask =
        (List.range fuel).map (fun k => IPv4.ofUint32 ((num + k) % 2 ^ 32)) := by
  intro fuel
  induction fuel with
  | zero =>
    intro num mask hn hm hf
    rw [ipsFrom]
    have hge : ¬ mask < 0xffffffff := by omega
    simp [hge]
  | succ n ih =>
    intro num mask hn hm hf
    have hlt : mask < 0xffffffff := by omega
    rw [ipsFrom]
    simp only [dif_pos hlt]
    have hmask1 : (mask + 1) % 2 ^ 32 = mask + 1 := Nat.mod_eq_of_lt (by omega)
    rw [hmask1, ih ((num + 1) % 2 ^ 32) (mask + 1) (Nat.mod_lt _ (by norm_num))
        (by omega) (by omega)]
    rw [List.range_succ_eq_map, List.map_cons, List.map_map]
    congr 1
    · congr 1
      omega
    · refine List.map_congr_left ?_
      intro k _
      simp only [Function.comp_apply]
      congr 1
      omega

/-- A bound network address of an interface that the selection loop of
`Scan` can use: an entry of `iface.Addrs()` that is a `*net.IPNet` whose
`IP.To4()` is non-nil.  `IP` is the 4-byte form, `Mask` the trailing four
bytes of the mask (`ipnet.Mask[len(ipnet.Mask)-4:]`). -/
structure IPNet where
  IP : IPv4
  Mask : IPv4
deriving DecidableEq

/-- The interface descriptor as the scan engine reads it: its name, its
hardware address (`iface.HardwareAddr`), and the outcome of
`iface.Addrs()`.  Each entry of the address list is `some ipnet` when it
is a `*net.IPNet` carrying an IPv4 address, `none` otherwise. -/
structure Iface where
  Name : String
  HardwareAddr : List Byte
  Addrs : Except String (List (Option IPNet))

/-- The selection loop of `Scan`: walk the bound addresses in order and
keep the first entry that is an IPv4 `*net.IPNet` (the loop `break`s at
the first hit); `none` when no entry qualifies. -/
def firstIPNet : List (Option IPNet) → Option IPNet
  | [] => none
  | some a :: _ => some a
  | none :: rest => firstIPNet rest

/-- One result entry, the struct `arpTable` of `arp.go`:
a source protocol address and a source hardware address. -/
structure arpTable where
  IP : List Byte
  HardwareAddr : List Byte
deriving DecidableEq

/-- The accumulated result, type `arpTables` of `arp.go`. -/
abbrev arpTables := List arpTable

/-- ARP operation code `layers.ARPRequest`. -/
def ARPRequest : Nat := 1

/-- ARP operation code `layers.ARPReply`. -/
def ARPReply : Nat := 2

/-- The fields of a received ARP layer that `readARP` inspects, from
`gopacket/layers.ARP` (byte slices, lengths not fixed by the type). -/
structure ARPLayer where
  Operation : Nat
  SourceHwAddress : List Byte
  SourceProtAddress : List Byte
  DstHwAddress : List Byte
  DstProtAddress : List Byte
deriving DecidableEq

/-- A received link-layer frame as `readARP` sees it:
`packet.Layer(layers.LayerTypeARP)` is either `nil` or an ARP layer. -/
structure Packet where
  arpLayer : Option ARPLayer
deriving DecidableEq

/-- The per-frame body of the receive loop of `readARP`: skip frames
without an ARP layer; skip ARP frames whose operation is not a reply or
whose source hardware address equals the local one
(`bytes.Equal([]byte(iface.HardwareAddr), arp.SourceHwAddress)`);
otherwise append `(SourceProtAddress, SourceHwAddress)` to the table. -/
def readARPStep (iface : Iface) (tbl : arpTables) (packet : Packet) : arpTables :=
  match packet.arpLayer with
  | none => tbl
  | some arp =>
    if arp.Operation ≠ ARPReply ∨ iface.HardwareAddr = arp.SourceHwAddress then tbl
    else tbl ++ [⟨arp.SourceProtAddress, arp.SourceHwAddress⟩]

/-- The table built by the `readARP` goroutine after processing a given
sequence of frames, starting from the empty table `Scan` allocates. -/
def readARPCollect (iface : Iface) (packets : List Packet) : arpTables :=
  packets.foldl (readARPStep iface) []

/-- The serialized request frame `writeARP` emits for one candidate:
Ethernet header (source = interface hardware address, destination =
broadcast) plus the ARP request payload, with `DstProtAddress` set to the
candidate.  All other fields are fixed by the template in `writeARP`. -/
structure ethARPFrame where
  SrcMAC : List Byte
  DstMAC : List Byte
  Operation : Nat
  SourceHwAddress : List Byte
  SourceProtAddress : IPv4
  DstHwAddress : List Byte
  DstProtAddress : IPv4
deriving DecidableEq

/-- The frame template of `writeARP` applied to one candidate address. -/
def mkRequestFrame (iface : Iface) (srcIP targetIP : IPv4) : ethARPFrame :=
  { SrcMAC := iface.HardwareAddr
    DstMAC := [255, 255, 255, 255, 255, 255]
    Operation := ARPRequest
    SourceHwAddress := iface.HardwareAddr
    SourceProtAddress := srcIP
    DstHwAddress := [0, 0, 0, 0, 0, 0]
    DstProtAddress := targetIP }

/-- The transmit loop of `writeARP` over a candidate list: the handle
behaviour is the oracle `w`, giving the outcome of the `i`-th call of
`handle.WritePacketData` (`none` = success).  On the first failing write
the loop returns that error at once; the first component collects the
frames successfully transmitted, in order. -/
def writeARPAux (w : Nat → Option String) (iface : Iface) (srcIP : IPv4) :
    Nat → List IPv4 → List ethARPFrame × Option String
  | _, [] => ([], none)
  | i, ip :: rest =>
    match w i with
    | some e => ([], some e)
    | none =>
      let r := writeARPAux w iface srcIP (i + 1) rest
      (mkRequestFrame iface srcIP ip :: r.1, r.2)

/-- The function `writeARP` of `arp.go`: one write per address produced
by `ips`, in order, aborting at the first write error. -/
def writeARP (w : Nat → Option String) (iface : Iface) (addr : IPNet) :
    List ethARPFrame × Option String :=
  writeARPAux w iface addr.IP 0 (ips addr.IP addr.Mask)

/-- The validation prologue of `Scan` (after `iface.Addrs()` succeeded),
exactly in source order: first the hardware-address check, then the
`addr == nil` check, then the loopback check, then the mask-width check.
Error strings are the ones in `arp.go`. -/
def scanValidate (iface : Iface) (addrs : List (Option IPNet)) :
    Except String IPNet :=
  let addr := firstIPNet addrs
  if iface.HardwareAddr.length = 0 then
    Except.error "Could not obtain MAC address"
  else
    match addr with
    | none => Except.error "no good IP network found"
    | some a =>
      if a.IP.b0 = 127 then Except.error "skipping localhost"
      else if a.Mask.b0 ≠ 255 ∨ a.Mask.b1 ≠ 255 then
        Except.error "mask means network is too large"
      else Except.ok a

/-- The environment of one `Scan` call: the outcome of `pcap.OpenLive`,
the write oracle for `handle.WritePacketData`, and the frames the
`readARP` goroutine has processed by the time the coordinator evaluates
its return value (on the success path: before the `stop <- true`
rendezvous; on the transmit-failure path: before the `return at, err`). -/
structure ScanEnv where
  openErr : Option String
  writeErr : Nat → Option String
  packets : List Packet

/-- What one `Scan` call produces: the returned table, the frames that
were written to the handle (its observable side effect), and the returned
error (`none` = nil). -/
structure ScanResult where
  table : arpTables
  transmitted : List ethARPFrame
  error : Option String

/-- The method `Scan` of `arp.go`: propagate an `Addrs()` error, run the
validation prologue, open the capture handle, start the listener, run
`writeARP`, and return the accumulated table together with the first
error met (or `nil`).  The listener contribution is `readARPCollect` over
the frames of the environment; on every path that fails before the
listener starts the table is the still-empty `at`. -/
def Scan (iface : Iface) (env : ScanEnv) : ScanResult :=
  match iface.Addrs with
  | Except.error e => ⟨[], [], some e⟩
  | Except.ok addrs =>
    match scanValidate iface addrs with
    | Except.error e => ⟨[], [], some e⟩
    | Except.ok addr =>
      match env.openErr with
      | some e => ⟨[], [], some e⟩
      | none =>
        let collected := readARPCollect iface env.packets
        let w := writeARP env.writeErr iface addr
        ⟨collected, w.1, w.2⟩

/-- Splitting a character list at every occurrence of `sep`, keeping empty
segments: the semantics of Go `strings.Split` for a non-empty separator,
specialized to the one-character separator the source uses. -/
def splitCharList (sep : Char) : List Char → List (List Char)
  | [] => [[]]
  | c :: rest =>
    match splitCharList sep rest with
    | [] => [[]]
    | g :: gs => if c = sep then [] :: g :: gs else (c :: g) :: gs

/-- Go `strings.Split(s, ",")`: split at every comma, keeping empty
segments and all whitespace; the empty string yields `[""]`. -/
def splitOnComma (s : String) : List String :=
  (splitCharList ',' s.data).map String.mk

/-- The name-validation loop of `IfaceToName`: `net.InterfaceByName`
succeeds exactly for the names the host knows; the loop returns the
error of the first unknown name (message as in the source, typo
included). -/
def checkIfaceNames (host : List String) : List String → Option String
  | [] => none
  | n :: rest =>
    if n ∈ host then checkIfaceNames host rest
    else some ("interface " ++ n ++ ": unkown")

/-- The function `IfaceToName` of `arp.go`, with the host enumeration
(`net.Interfaces()`, assumed to succeed) passed explicitly: the literal
"all" yields every host interface name in enumeration order; any other
input is split on commas and each entry validated in order.  The split
list is returned even when validation fails, together with the error. -/
def IfaceToName (host : List String) (interfaceNames : String) :
    List String × Option String :=
  if interfaceNames = "all" then (host, none)
  else
    let r := splitOnComma interfaceNames
    (r, checkIfaceNames host r)

/-- Events of the coordinating thread of `Scan` once the capture handle
is open, in program order. -/
inductive CoEv
  /-- `go readARP(handle, a.iface, &at, stop)` -/
  | startListener
  /-- a successful `handle.WritePacketData` for the i-th candidate -/
  | writeFrame (i : Nat)
  /-- `time.Sleep(2 * time.Second)` -/
  | sleepWindow
  /-- `stop <- true`: the blocking send on the unbuffered channel -/
  | sendStop
  /-- evaluation of the return value `at` in a `return at, …` statement -/
  | readTable
  /-- the deferred `close(stop)` (deferred second, so it runs first) -/
  | closeStopChan
  /-- the deferred `handle.Close()` (deferred first, so it runs last) -/
  | closeHandle
deriving DecidableEq

/-- Program-order event trace of the coordinating thread of `Scan` from
the `go readARP(…)` statement on, as a function of the transmit outcome.
Go evaluates the operands of a `return` statement before running the
deferred calls, so `readTable` precedes `closeStopChan` on both paths;
the rendezvous `sendStop` exists only on the success path. -/
def coordTrace (iface : Iface) (addr : IPNet) (w : Nat → Option String) :
    List CoEv :=
  let r := writeARP w iface addr
  CoEv.startListener :: (List.range r.1.length).map CoEv.writeFrame ++
    (match r.2 with
     | none =>
       [CoEv.sleepWindow, CoEv.sendStop, CoEv.readTable,
        CoEv.closeStopChan, CoEv.closeHandle]
     | some _ =>
       [CoEv.readTable, CoEv.closeStopChan, CoEv.closeHandle])

/-- Events of the `readARP` goroutine, in program order. -/
inductive LiEv
  /-- an `*arpTables = append(*arpTables, entry)` -/
  | appendEntry (e : arpTable)
  /-- a frame discarded by one of the two `continue` branches -/
  | dropFrame
  /-- the `case <-stop` branch: cancellation observed, loop returns -/
  | recvStop
deriving DecidableEq

/-- Program-order event trace of the `readARP` goroutine, given the
frames it processes before the cancellation signal is observed: one
append or drop per frame, then the `<-stop` receive, after which the
function returns (so nothing follows `recvStop`). -/
def listenerTrace (iface : Iface) (packets : List Packet) : List LiEv :=
  packets.map (fun p =>
    match p.arpLayer with
    | none => LiEv.dropFrame
    | some arp =>
      if arp.Operation ≠ ARPReply ∨ iface.HardwareAddr = arp.SourceHwAddress then
        LiEv.dropFrame
      else LiEv.appendEntry ⟨arp.SourceProtAddress, arp.SourceHwAddress⟩) ++
    [LiEv.recvStop]

/-- The entries appended along a listener trace, in order. -/
def appendsOf (t : List LiEv) : arpTables :=
  t.filterMap (fun e =>
    match e with
    | LiEv.appendEntry a => some a
    | _ => none)

/-- Event `x` occurs in trace `t` strictly before some occurrence of
event `y`. -/
def Precedes {α : Type} (x y : α) (t : List α) : Prop :=
  ∃ l₁ l₂, t = l₁ ++ x :: l₂ ∧ y ∈ l₂

/-- Closed form of `ips`: the output is the `0xffffffff - mask` consecutive
addresses starting at `address AND mask`.  No `mod` is needed: the start
value is at most the mask, so the counter never wraps. -/
theorem ips_eq (ip mask : IPv4) :
    ips ip mask =
      (List.range (0xffffffff - mask.toUint32)).map
        (fun k => IPv4.ofUint32 ((ip.toUint32 &&& mask.toUint32) + k)) := by
  have hmask := mask.toUint32_lt
  have hstart : ip.toUint32 &&& mask.toUint32 ≤ mask.toUint32 := Nat.and_le_right
  rw [ips, ipsFrom_eq_rangeMap (0xffffffff - mask.toUint32) _ _
      (by omega) hmask rfl]
  refine List.map_congr_left ?_
  intro k hk
  rw [List.mem_range] at hk
  exact congrArg _ (Nat.mod_eq_of_lt (by omega))

/-! ## Helper lemmas -/

theorem ips_length (ip mask : IPv4) :
    (ips ip mask).length = 0xffffffff - mask.toUint32 := by
  rw [ips_eq, List.length_map, List.length_range]

/-- Executable check that every adjacent pair of a list of addresses
ascends by exactly one (read as 32-bit big-endian integers). -/
def ascendsByOne : List IPv4 → Bool
  | [] => true
  | [_] => true
  | a :: b :: rest => (b.toUint32 == a.toUint32 + 1) && ascendsByOne (b :: rest)

instance exceptDecEq {ε α : Type} [DecidableEq ε] [DecidableEq α] :
    DecidableEq (Except ε α) := fun x y =>
  match x, y with
  | Except.ok a, Except.ok b =>
    if h : a = b then isTrue (by rw [h])
    else isFalse (fun hc => h (by cases hc; rfl))
  | Except.error a, Except.error b =>
    if h : a = b then isTrue (by rw [h])
    else isFalse (fun hc => h (by cases hc; rfl))
  | Except.ok _, Except.error _ => isFalse (fun hc => Except.noConfusion hc)
  | Except.error _, Except.ok _ => isFalse (fun hc => Except.noConfusion hc)

/-! ## Claims -/

set_option maxRecDepth 4000 in
/-- C1: for base `192.168.1.0` and mask `255.255.255.0`, `ips` yields
exactly the 255 addresses `192.168.1.0` … `192.168.1.254`, ascending by
one per step, including the network address and excluding the broadcast
address `192.168.1.255`; in general the sequence starts at
`address AND mask` and ascends by one per step. -/
theorem C1_enumerator_slash24 :
    (ips ⟨192, 168, 1, 0⟩ ⟨255, 255, 255, 0⟩).length = 255
    ∧ ips ⟨192, 168, 1, 0⟩ ⟨255, 255, 255, 0⟩ =
        (List.range 255).map (fun k => IPv4.ofUint32 (0xC0A80100 + k))
    ∧ (⟨192, 168, 1, 0⟩ : IPv4) ∈ ips ⟨192, 168, 1, 0⟩ ⟨255, 255, 255, 0⟩
    ∧ (⟨192, 168, 1, 254⟩ : IPv4) ∈ ips ⟨192, 168, 1, 0⟩ ⟨255, 255, 255, 0⟩
    ∧ (⟨192, 168, 1, 255⟩ : IPv4) ∉ ips ⟨192, 168, 1, 0⟩ ⟨255, 255, 255, 0⟩
    ∧ (∀ a ∈ ips ⟨192, 168, 1, 0⟩ ⟨255, 255, 255, 0⟩,
        a.b0 = 192 ∧ a.b1 = 168 ∧ a.b2 = 1 ∧ a.b3.val ≤ 254)
    ∧ ascendsByOne (ips ⟨192, 168, 1, 0⟩ ⟨255, 255, 255, 0⟩) = true
    ∧ ∀ ip mask : IPv4,
        ips ip mask = (List.range (0xffffffff - mask.toUint32)).map
          (fun k => IPv4.ofUint32 ((ip.toUint32 &&& mask.toUint32) + k)) := by
  refine ⟨?_, ?_, ?_, ?_, ?_, ?_, ?_, ips_eq⟩ <;> (rw [ips_eq]; decide)

set_option maxRecDepth 4000 in
/-- C1 witness: the enumerated address at concrete member
`192.168.1.7` satisfies the octet description. -/
theorem C1_enumerator_slash24_witness :
    (⟨192, 168, 1, 7⟩ : IPv4).b0 = 192 ∧ (⟨192, 168, 1, 7⟩ : IPv4).b1 = 168
    ∧ (⟨192, 168, 1, 7⟩ : IPv4).b2 = 1 ∧ (⟨192, 168, 1, 7⟩ : IPv4).b3.val ≤ 254 :=
  C1_enumerator_slash24.2.2.2.2.2.1 ⟨192, 168, 1, 7⟩ (by rw [ips_eq]; decide)

/-- C9: `ips` terminates on every 4-byte address and mask with exactly
`2 ^ 32 - 1 - mask` addresses; a mask whose first two octets are all-ones
gives at most 65535 candidates; the all-ones mask gives none, and an
interface bound with an all-ones mask is scanned with zero transmitted
frames and no error. -/
theorem C9_termination_count :
    (∀ ip mask : IPv4, (ips ip mask).length = 0xffffffff - mask.toUint32)
    ∧ (∀ ip mask : IPv4, mask.b0 = 255 → mask.b1 = 255 →
        (ips ip mask).length ≤ 65535)
    ∧ (∀ ip : IPv4, ips ip ⟨255, 255, 255, 255⟩ = [])
    ∧ (∀ (name : String) (hw : List Byte) (env : ScanEnv) (ip : IPv4),
        hw ≠ [] → ip.b0 ≠ 127 → env.openErr = none →
        (Scan ⟨name, hw, Except.ok [some ⟨ip, ⟨255, 255, 255, 255⟩⟩]⟩ env).transmitted = []
        ∧ (Scan ⟨name, hw, Except.ok [some ⟨ip, ⟨255, 255, 255, 255⟩⟩]⟩ env).error = none) := by
  have hips0 : ∀ ip : IPv4, ips ip ⟨255, 255, 255, 255⟩ = [] := by
    intro ip
    rw [ips_eq]
    rfl
  refine ⟨ips_length, ?_, hips0, ?_⟩
  · intro ip mask h0 h1
    rw [ips_length]
    have hv0 : mask.b0.val = 255 := by rw [h0]; rfl
    have hv1 : mask.b1.val = 255 := by rw [h1]; rfl
    have h2 := mask.b2.isLt
    have h3 := mask.b3.isLt
    have hge : 0xffff0000 ≤ mask.toUint32 := by
      unfold IPv4.toUint32
      omega
    omega
  · intro name hw env ip hhw hip hopen
    have hlen : ¬ hw.length = 0 := by
      simpa [List.length_eq_zero] using hhw
    constructor <;>
      simp [Scan, scanValidate, firstIPNet, hopen, writeARP, hips0 ip,
        writeARPAux, hip, hlen]

/-- C9 witness: a /20 mask stays within the 65535 bound, and a concrete
interface bound with the all-ones mask scans with no frames and no
error. -/
theorem C9_termination_count_witness :
    (ips ⟨10, 0, 0, 1⟩ ⟨255, 255, 240, 0⟩).length ≤ 65535
    ∧ (Scan ⟨"eth0", [1, 2, 3, 4, 5, 6],
          Except.ok [some ⟨⟨10, 0, 0, 5⟩, ⟨255, 255, 255, 255⟩⟩]⟩
        ⟨none, fun _ => none, []⟩).transmitted = []
    ∧ (Scan ⟨"eth0", [1, 2, 3, 4, 5, 6],
          Except.ok [some ⟨⟨10, 0, 0, 5⟩, ⟨255, 255, 255, 255⟩⟩]⟩
        ⟨none, fun _ => none, []⟩).error = none :=
  ⟨C9_termination_count.2.1 ⟨10, 0, 0, 1⟩ ⟨255, 255, 240, 0⟩ rfl rfl,
   (C9_termination_count.2.2.2 "eth0" [1, 2, 3, 4, 5, 6] ⟨none, fun _ => none, []⟩
      ⟨10, 0, 0, 5⟩ (by decide) (by decide) rfl).1,
   (C9_termination_count.2.2.2 "eth0" [1, 2, 3, 4, 5, 6] ⟨none, fun _ => none, []⟩
      ⟨10, 0, 0, 5⟩ (by decide) (by decide) rfl).2⟩

/-- C3: with a non-empty hardware address and a non-loopback selected
address, the range validation accepts exactly when the first two mask
octets are both all-ones; mask `255.255.0.0` is accepted, mask
`255.254.0.0` is rejected with the range-too-large error. -/
theorem C3_slash16_boundary :
    (∀ (iface : Iface) (a : IPNet), iface.HardwareAddr ≠ [] → a.IP.b0 ≠ 127 →
        (scanValidate iface [some a] = Except.ok a ↔
          (a.Mask.b0 = 255 ∧ a.Mask.b1 = 255)))
    ∧ scanValidate ⟨"eth0", [1, 2, 3, 4, 5, 6], Except.ok []⟩
        [some ⟨⟨10, 1, 2, 3⟩, ⟨255, 255, 0, 0⟩⟩] =
        Except.ok ⟨⟨10, 1, 2, 3⟩, ⟨255, 255, 0, 0⟩⟩
    ∧ scanValidate ⟨"eth0", [1, 2, 3, 4, 5, 6], Except.ok []⟩
        [some ⟨⟨10, 1, 2, 3⟩, ⟨255, 254, 0, 0⟩⟩] =
        Except.error "mask means network is too large" := by
  refine ⟨?_, by decide, by decide⟩
  intro iface a hhw hip
  have hlen : ¬ iface.HardwareAddr.length = 0 := by
    simpa [List.length_eq_zero] using hhw
  constructor
  · intro h
    by_contra hmask
    have hcond : a.Mask.b0 ≠ 255 ∨ a.Mask.b1 ≠ 255 := by tauto
    simp [scanValidate, firstIPNet, hlen, hip, hcond] at h
  · rintro ⟨h0, h1⟩
    simp [scanValidate, firstIPNet, hlen, hip, h0, h1]

/-- C3 witness: the boundary acceptance at a concrete interface and
mask `255.255.0.0`. -/
theorem C3_slash16_boundary_witness :
    scanValidate ⟨"eth1", [9, 9, 9, 9, 9, 9], Except.ok []⟩
        [some ⟨⟨172, 16, 5, 5⟩, ⟨255, 255, 0, 0⟩⟩] =
      Except.ok ⟨⟨172, 16, 5, 5⟩, ⟨255, 255, 0, 0⟩⟩ :=
  (C3_slash16_boundary.1 ⟨"eth1", [9, 9, 9, 9, 9, 9], Except.ok []⟩
      ⟨⟨172, 16, 5, 5⟩, ⟨255, 255, 0, 0⟩⟩ (by decide) (by decide)).mpr
    ⟨rfl, rfl⟩

/-- C2 counterexample: for an interface with no IPv4 address AND an empty
hardware address the validation prologue returns the missing-MAC error,
not the no-address error the claim asserts, because the source checks the
hardware address before the `addr == nil` check. -/
theorem C2_counterexample :
    scanValidate ⟨"dummy0", [], Except.ok []⟩ [] =
      Except.error "Could not obtain MAC address"
    ∧ scanValidate ⟨"dummy0", [], Except.ok []⟩ [] ≠
      Except.error "no good IP network found" := by
  exact ⟨rfl, by decide⟩

/-- C2 (amended): the validation prologue performs the four checks in the
source order hardware-address first, then no-address, then loopback, then
mask-width, each with its own distinct error; for an interface with both
no IPv4 address and an empty hardware address the missing-MAC error is
returned; a loopback interface with a hardware address fails with the
loopback error and `Scan` transmits nothing. -/
theorem C2_validation_order :
    (∀ (iface : Iface) (addrs : List (Option IPNet)), iface.HardwareAddr = [] →
        scanValidate iface addrs = Except.error "Could not obtain MAC address")
    ∧ (∀ (iface : Iface) (addrs : List (Option IPNet)), iface.HardwareAddr ≠ [] →
        firstIPNet addrs = none →
        scanValidate iface addrs = Except.error "no good IP network found")
    ∧ (∀ (iface : Iface) (addrs : List (Option IPNet)) (a : IPNet),
        iface.HardwareAddr ≠ [] → firstIPNet addrs = some a → a.IP.b0 = 127 →
        scanValidate iface addrs = Except.error "skipping localhost")
    ∧ (∀ (iface : Iface) (addrs : List (Option IPNet)) (a : IPNet),
        iface.HardwareAddr ≠ [] → firstIPNet addrs = some a → a.IP.b0 ≠ 127 →
        a.Mask.b0 ≠ 255 ∨ a.Mask.b1 ≠ 255 →
        scanValidate iface addrs = Except.error "mask means network is too large")
    ∧ (∀ (iface : Iface) (addrs : List (Option IPNet)) (a : IPNet) (env : ScanEnv),
        iface.Addrs = Except.ok addrs → iface.HardwareAddr ≠ [] →
        firstIPNet addrs = some a → a.IP.b0 = 127 →
        Scan iface env = ⟨[], [], some "skipping localhost"⟩) := by
  have h3 : ∀ (iface : Iface) (addrs : List (Option IPNet)) (a : IPNet),
      iface.HardwareAddr ≠ [] → firstIPNet addrs = some a → a.IP.b0 = 127 →
      scanValidate iface addrs = Except.error "skipping localhost" := by
    intro iface addrs a hhw hfirst h127
    have hlen : ¬ iface.HardwareAddr.length = 0 := by
      simpa [List.length_eq_zero] using hhw
    simp [scanValidate, hlen, hfirst, h127]
  refine ⟨?_, ?_, h3, ?_, ?_⟩
  · intro iface addrs h
    simp [scanValidate, h]
  · intro iface addrs hhw hfirst
    have hlen : ¬ iface.HardwareAddr.length = 0 := by
      simpa [List.length_eq_zero] using hhw
    simp [scanValidate, hlen, hfirst]
  · intro iface addrs a hhw hfirst h127 hmask
    have hlen : ¬ iface.HardwareAddr.length = 0 := by
      simpa [List.length_eq_zero] using hhw
    simp [scanValidate, hlen, hfirst, h127, hmask]
  · intro iface addrs a env hAddrs hhw hfirst h127
    have hval := h3 iface addrs a hhw hfirst h127
    simp [Scan, hAddrs, hval]

/-- C2 witness: a loopback-only interface with a hardware address gets
the loopback error and transmits no frame. -/
theorem C2_validation_order_witness :
    Scan ⟨"lo", [2, 0, 0, 0, 0, 1],
        Except.ok [some ⟨⟨127, 0, 0, 1⟩, ⟨255, 0, 0, 0⟩⟩]⟩
      ⟨none, fun _ => none, []⟩ = ⟨[], [], some "skipping localhost"⟩ :=
  C2_validation_order.2.2.2.2
    ⟨"lo", [2, 0, 0, 0, 0, 1], Except.ok [some ⟨⟨127, 0, 0, 1⟩, ⟨255, 0, 0, 0⟩⟩]⟩
    [some ⟨⟨127, 0, 0, 1⟩, ⟨255, 0, 0, 0⟩⟩] ⟨⟨127, 0, 0, 1⟩, ⟨255, 0, 0, 0⟩⟩
    ⟨none, fun _ => none, []⟩ rfl (by decide) rfl rfl

/-- The reply check of `readARP` as a partial extraction: the entry the
loop body appends for a frame, or `none` when the frame is discarded. -/
def replyEntry (iface : Iface) (p : Packet) : Option arpTable :=
  match p.arpLayer with
  | none => none
  | some arp =>
    if arp.Operation ≠ ARPReply ∨ iface.HardwareAddr = arp.SourceHwAddress then
      none
    else some ⟨arp.SourceProtAddress, arp.SourceHwAddress⟩

/-- The receive loop appends exactly the entries `replyEntry` extracts,
in frame order, after whatever the accumulator already held. -/
theorem readARP_foldl_eq (iface : Iface) :
    ∀ (packets : List Packet) (tbl : arpTables),
      packets.foldl (readARPStep iface) tbl =
        tbl ++ packets.filterMap (replyEntry iface) := by
  intro packets
  induction packets with
  | nil => intro tbl; simp
  | cons p ps ih =>
    intro tbl
    rw [List.foldl_cons, ih, List.filterMap_cons]
    cases hp : p.arpLayer with
    | none => simp [readARPStep, replyEntry, hp]
    | some arp =>
      by_cases hc : arp.Operation ≠ ARPReply ∨ iface.HardwareAddr = arp.SourceHwAddress
      · simp [readARPStep, replyEntry, hp, hc]
      · simp [readARPStep, replyEntry, hp, hc]

/-- C4: the per-frame filter of the reply collector appends an entry iff
the frame has an ARP layer whose operation is the reply code and whose
source hardware address differs from the local one; the appended entry is
(source protocol address, source hardware address); no collected entry
ever carries the local hardware address; the filter ignores the target
protocol address; non-ARP frames leave the table unchanged. -/
theorem C4_reply_filter :
    (∀ (iface : Iface) (tbl : arpTables) (p : Packet), p.arpLayer = none →
        readARPStep iface tbl p = tbl)
    ∧ (∀ (iface : Iface) (tbl : arpTables) (p : Packet) (arp : ARPLayer),
        p.arpLayer = some arp →
        (arp.Operation = ARPReply ∧ iface.HardwareAddr ≠ arp.SourceHwAddress →
          readARPStep iface tbl p =
            tbl ++ [⟨arp.SourceProtAddress, arp.SourceHwAddress⟩])
        ∧ (arp.Operation ≠ ARPReply ∨ iface.HardwareAddr = arp.SourceHwAddress →
          readARPStep iface tbl p = tbl))
    ∧ (∀ (iface : Iface) (packets : List Packet) (e : arpTable),
        e ∈ readARPCollect iface packets → e.HardwareAddr ≠ iface.HardwareAddr)
    ∧ (∀ (iface : Iface) (tbl : arpTables) (arp : ARPLayer) (d : List Byte),
        readARPStep iface tbl ⟨some { arp with DstProtAddress := d }⟩ =
          readARPStep iface tbl ⟨some arp⟩) := by
  refine ⟨?_, ?_, ?_, ?_⟩
  · intro iface tbl p h
    simp [readARPStep, h]
  · intro iface tbl p arp h
    constructor
    · rintro ⟨hop, hhw⟩
      have hc : ¬ (arp.Operation ≠ ARPReply ∨ iface.HardwareAddr = arp.SourceHwAddress) := by
        push_neg
        exact ⟨hop, hhw⟩
      simp [readARPStep, h, hc]
    · intro hc
      simp only [readARPStep, h]
      rw [if_pos hc]
  · intro iface packets e he
    rw [readARPCollect, readARP_foldl_eq, List.nil_append] at he
    rw [List.mem_filterMap] at he
    obtain ⟨p, _, hp⟩ := he
    cases hl : p.arpLayer with
    | none =>
      simp only [replyEntry, hl] at hp
      cases hp
    | some arp =>
      simp only [replyEntry, hl] at hp
      by_cases hc : arp.Operation ≠ ARPReply ∨ iface.HardwareAddr = arp.SourceHwAddress
      · rw [if_pos hc] at hp; cases hp
      · rw [if_neg hc] at hp
        push_neg at hc
        cases hp
        exact fun heq => hc.2 heq.symm
  · intro iface tbl arp d
    rfl

/-- C4 witness: a concrete qualifying reply from a foreign hardware
address is appended as (source protocol address, source hardware
address). -/
theorem C4_reply_filter_witness :
    readARPStep ⟨"eth0", [1, 2, 3, 4, 5, 6], Except.ok []⟩ []
        ⟨some ⟨2, [170, 170, 170, 170, 170, 170], [10, 0, 0, 9],
          [0, 0, 0, 0, 0, 0], [10, 0, 0, 1]⟩⟩ =
      [⟨[10, 0, 0, 9], [170, 170, 170, 170, 170, 170]⟩] :=
  (C4_reply_filter.2.1 ⟨"eth0", [1, 2, 3, 4, 5, 6], Except.ok []⟩ []
      ⟨some ⟨2, [170, 170, 170, 170, 170, 170], [10, 0, 0, 9],
        [0, 0, 0, 0, 0, 0], [10, 0, 0, 1]⟩⟩
      ⟨2, [170, 170, 170, 170, 170, 170], [10, 0, 0, 9],
        [0, 0, 0, 0, 0, 0], [10, 0, 0, 1]⟩ rfl).1 ⟨rfl, by decide⟩

/-- Transmit loop, all-success case: one frame per candidate, in order,
no error. -/
theorem writeARPAux_all_ok (w : Nat → Option String) (iface : Iface) (srcIP : IPv4) :
    ∀ (cands : List IPv4) (i0 : Nat), (∀ i, i < cands.length → w (i0 + i) = none) →
      writeARPAux w iface srcIP i0 cands =
        (cands.map (mkRequestFrame iface srcIP), none) := by
  intro cands
  induction cands with
  | nil => intro i0 _; rfl
  | cons ip rest ih =>
    intro i0 h
    have h0 : w i0 = none := by simpa using h 0 (Nat.succ_pos _)
    have hrest : ∀ i, i < rest.length → w (i0 + 1 + i) = none := by
      intro i hi
      have hx := h (i + 1) (by simpa using Nat.succ_lt_succ hi)
      rw [show i0 + (i + 1) = i0 + 1 + i from by omega] at hx
      exact hx
    simp [writeARPAux, h0, ih (i0 + 1) hrest]

/-- Transmit loop, first-failure case: the frames for the candidates
before the failing write are sent, the error is returned at once, and no
later candidate is attempted. -/
theorem writeARPAux_first_fail (w : Nat → Option String) (iface : Iface) (srcIP : IPv4) :
    ∀ (cands : List IPv4) (i0 k : Nat) (e : String), k < cands.length →
      w (i0 + k) = some e → (∀ i, i < k → w (i0 + i) = none) →
      writeARPAux w iface srcIP i0 cands =
        ((cands.take k).map (mkRequestFrame iface srcIP), some e) := by
  intro cands
  induction cands with
  | nil =>
    intro i0 k e hk
    simp at hk
  | cons ip rest ih =>
    intro i0 k e hk hfail hok
    cases k with
    | zero =>
      have h0 : w i0 = some e := by simpa using hfail
      simp [writeARPAux, h0]
    | succ g =>
      have h0 : w i0 = none := by simpa using hok 0 (Nat.succ_pos _)
      have hfail2 : w (i0 + 1 + g) = some e := by
        rw [show i0 + 1 + g = i0 + (g + 1) from by omega]
        exact hfail
      have hok2 : ∀ i, i < g → w (i0 + 1 + i) = none := by
        intro i hi
        rw [show i0 + 1 + i = i0 + (i + 1) from by omega]
        exact hok (i + 1) (Nat.succ_lt_succ hi)
      simp [writeARPAux, h0, List.take_succ_cons,
        ih (i0 + 1) g e (by simpa using Nat.lt_of_succ_lt_succ hk) hfail2 hok2]

/-- C5: the broadcaster performs one synchronous write per candidate in
sequence order, returns the first write error immediately without
transmitting any later candidate, and `Scan` propagates that error to the
caller together with the frames transmitted so far. -/
theorem C5_broadcast_sequential :
    (∀ (w : Nat → Option String) (iface : Iface) (srcIP : IPv4) (cands : List IPv4),
        (∀ i, i < cands.length → w i = none) →
        writeARPAux w iface srcIP 0 cands =
          (cands.map (mkRequestFrame iface srcIP), none))
    ∧ (∀ (w : Nat → Option String) (iface : Iface) (srcIP : IPv4) (cands : List IPv4)
        (k : Nat) (e : String), k < cands.length → w k = some e →
        (∀ i, i < k → w i = none) →
        writeARPAux w iface srcIP 0 cands =
          ((cands.take k).map (mkRequestFrame iface srcIP), some e))
    ∧ (∀ (iface : Iface) (env : ScanEnv) (addrs : List (Option IPNet)) (a : IPNet)
        (e : String), iface.Addrs = Except.ok addrs →
        scanValidate iface addrs = Except.ok a → env.openErr = none →
        (writeARP env.writeErr iface a).2 = some e →
        (Scan iface env).error = some e
        ∧ (Scan iface env).transmitted = (writeARP env.writeErr iface a).1) := by
  refine ⟨?_, ?_, ?_⟩
  · intro w iface srcIP cands h
    exact writeARPAux_all_ok w iface srcIP cands 0 (by simpa using h)
  · intro w iface srcIP cands k e hk hfail hok
    exact writeARPAux_first_fail w iface srcIP cands 0 k e hk (by simpa using hfail)
      (by simpa using hok)
  · intro iface env addrs a e hA hval hopen hw
    constructor <;> simp [Scan, hA, hval, hopen, hw]

/-- C5 witness: with the second write failing, exactly the first frame is
transmitted and the error is returned. -/
theorem C5_broadcast_sequential_witness :
    writeARPAux (fun i => if i = 1 then some "short write" else none)
        ⟨"eth0", [1, 2, 3, 4, 5, 6], Except.ok []⟩ ⟨10, 0, 0, 5⟩ 0
        [⟨10, 0, 0, 1⟩, ⟨10, 0, 0, 2⟩, ⟨10, 0, 0, 3⟩] =
      (([⟨10, 0, 0, 1⟩, ⟨10, 0, 0, 2⟩, ⟨10, 0, 0, 3⟩].take 1).map
          (mkRequestFrame ⟨"eth0", [1, 2, 3, 4, 5, 6], Except.ok []⟩ ⟨10, 0, 0, 5⟩),
        some "short write") :=
  C5_broadcast_sequential.2.1 (fun i => if i = 1 then some "short write" else none)
    ⟨"eth0", [1, 2, 3, 4, 5, 6], Except.ok []⟩ ⟨10, 0, 0, 5⟩
    [⟨10, 0, 0, 1⟩, ⟨10, 0, 0, 2⟩, ⟨10, 0, 0, 3⟩] 1 "short write"
    (by decide) rfl (fun i hi => by
      have hzero : i = 0 := by omega
      rw [hzero]
      rfl)

/-- C6 counterexample: a run in which validation and open succeed, the
first transmit fails, and the listener has already processed one foreign
reply: `Scan` returns the transmit error TOGETHER with a non-empty table,
because the `return at, err` statement returns the shared accumulator
as-is. -/
theorem C6_counterexample :
    (Scan ⟨"eth0", [1, 2, 3, 4, 5, 6],
        Except.ok [some ⟨⟨10, 0, 0, 1⟩, ⟨255, 255, 255, 254⟩⟩]⟩
      ⟨none, fun _ => some "write fail",
        [⟨some ⟨2, [170, 170, 170, 170, 170, 170], [10, 0, 0, 9],
          [0, 0, 0, 0, 0, 0], [10, 0, 0, 1]⟩⟩]⟩).error = some "write fail"
    ∧ (Scan ⟨"eth0", [1, 2, 3, 4, 5, 6],
        Except.ok [some ⟨⟨10, 0, 0, 1⟩, ⟨255, 255, 255, 254⟩⟩]⟩
      ⟨none, fun _ => some "write fail",
        [⟨some ⟨2, [170, 170, 170, 170, 170, 170], [10, 0, 0, 9],
          [0, 0, 0, 0, 0, 0], [10, 0, 0, 1]⟩⟩]⟩).table ≠ [] := by
  have hips : ips ⟨10, 0, 0, 1⟩ ⟨255, 255, 255, 254⟩ = [⟨10, 0, 0, 0⟩] := by
    rw [ips_eq]; decide
  constructor <;>
    simp [Scan, scanValidate, firstIPNet, writeARP, hips, writeARPAux,
      readARPCollect, readARPStep, ARPReply]

/-- C6 (amended): on every failure path reached before the listener
starts — an `Addrs()` error, any of the four validations, or the capture
open — the returned table is empty; a non-empty table can only be the
listener's collection, which on the transmit-failure path is returned
together with the error. -/
theorem C6_no_partial_table (iface : Iface) (env : ScanEnv) :
    ((∃ e, iface.Addrs = Except.error e) → (Scan iface env).table = [])
    ∧ (∀ (addrs : List (Option IPNet)) (e : String),
        iface.Addrs = Except.ok addrs → scanValidate iface addrs = Except.error e →
        (Scan iface env).table = [])
    ∧ (∀ (addrs : List (Option IPNet)) (a : IPNet) (e : String),
        iface.Addrs = Except.ok addrs → scanValidate iface addrs = Except.ok a →
        env.openErr = some e → (Scan iface env).table = [])
    ∧ ((Scan iface env).table ≠ [] →
        (Scan iface env).table = readARPCollect iface env.packets) := by
  refine ⟨?_, ?_, ?_, ?_⟩
  · rintro ⟨e, he⟩
    simp [Scan, he]
  · intro addrs e hA hv
    simp [Scan, hA, hv]
  · intro addrs a e hA hv hopen
    simp [Scan, hA, hv, hopen]
  · intro h
    cases hA : iface.Addrs with
    | error e => simp [Scan, hA] at h
    | ok addrs =>
      cases hv : scanValidate iface addrs with
      | error e => simp [Scan, hA, hv] at h
      | ok a =>
        cases hopen : env.openErr with
        | some e => simp [Scan, hA, hv, hopen] at h
        | none => simp [Scan, hA, hv, hopen]

/-- C6 witness: a capture-open failure on a valid interface returns an
empty table. -/
theorem C6_no_partial_table_witness :
    (Scan ⟨"eth0", [1, 2, 3, 4, 5, 6],
        Except.ok [some ⟨⟨10, 0, 0, 5⟩, ⟨255, 255, 255, 0⟩⟩]⟩
      ⟨some "pcap: permission denied", fun _ => none, []⟩).table = [] :=
  (C6_no_partial_table
      ⟨"eth0", [1, 2, 3, 4, 5, 6], Except.ok [some ⟨⟨10, 0, 0, 5⟩, ⟨255, 255, 255, 0⟩⟩]⟩
      ⟨some "pcap: permission denied", fun _ => none, []⟩).2.2.1
    [some ⟨⟨10, 0, 0, 5⟩, ⟨255, 255, 255, 0⟩⟩] ⟨⟨10, 0, 0, 5⟩, ⟨255, 255, 255, 0⟩⟩
    "pcap: permission denied" rfl (by decide) rfl

/-- C7 counterexample: on the transmit-failure return path the
coordinator evaluates the returned table although no stop-channel send
ever happens on that path (the deferred `close(stop)` runs only after the
return value is evaluated), so the read is NOT preceded by the claimed
rendezvous on that return path. -/
theorem C7_counterexample :
    CoEv.readTable ∈ coordTrace ⟨"eth0", [1, 2, 3, 4, 5, 6], Except.ok []⟩
        ⟨⟨10, 0, 0, 1⟩, ⟨255, 255, 255, 254⟩⟩ (fun _ => some "write fail")
    ∧ CoEv.sendStop ∉ coordTrace ⟨"eth0", [1, 2, 3, 4, 5, 6], Except.ok []⟩
        ⟨⟨10, 0, 0, 1⟩, ⟨255, 255, 255, 254⟩⟩ (fun _ => some "write fail") := by
  have hips : ips ⟨10, 0, 0, 1⟩ ⟨255, 255, 255, 254⟩ = [⟨10, 0, 0, 0⟩] := by
    rw [ips_eq]; decide
  constructor <;> simp [coordTrace, writeARP, hips, writeARPAux]

/-- C7 (amended): on the success path the blocking rendezvous
(`stop <- true`) strictly precedes the coordinator's read of the table,
the listener appends only before it observes cancellation and nothing
follows its `<-stop` receive, and the entries of its trace are exactly
the collected table; on the transmit-failure path, however, there is no
send on the stop channel at all and the coordinator reads the table
before the deferred `close(stop)`, so the rendezvous-before-read
guarantee holds only on the success path. -/
theorem C7_rendezvous (iface : Iface) (addr : IPNet) (w : Nat → Option String)
    (packets : List Packet) :
    ((writeARP w iface addr).2 = none →
        Precedes CoEv.sendStop CoEv.readTable (coordTrace iface addr w))
    ∧ (∀ e, (writeARP w iface addr).2 = some e →
        CoEv.sendStop ∉ coordTrace iface addr w
        ∧ Precedes CoEv.readTable CoEv.closeStopChan (coordTrace iface addr w))
    ∧ (listenerTrace iface packets).dropWhile (fun e => e != LiEv.recvStop) =
        [LiEv.recvStop]
    ∧ appendsOf (listenerTrace iface packets) = readARPCollect iface packets := by
  refine ⟨?_, ?_, ?_, ?_⟩
  · intro h
    refine ⟨CoEv.startListener ::
        (List.range (writeARP w iface addr).1.length).map CoEv.writeFrame ++
        [CoEv.sleepWindow],
      [CoEv.readTable, CoEv.closeStopChan, CoEv.closeHandle], ?_, by simp⟩
    simp [coordTrace, h]
  · intro e h
    constructor
    · simp [coordTrace, h]
    · refine ⟨CoEv.startListener ::
          (List.range (writeARP w iface addr).1.length).map CoEv.writeFrame,
        [CoEv.closeStopChan, CoEv.closeHandle], ?_, by simp⟩
      simp [coordTrace, h]
  · rw [listenerTrace, List.dropWhile_append]
    have hnil : (packets.map (fun p =>
        match p.arpLayer with
        | none => LiEv.dropFrame
        | some arp =>
          if arp.Operation ≠ ARPReply ∨ iface.HardwareAddr = arp.SourceHwAddress then
            LiEv.dropFrame
          else LiEv.appendEntry
            ⟨arp.SourceProtAddress, arp.SourceHwAddress⟩)).dropWhile
          (fun e => e != LiEv.recvStop) = [] := by
      rw [List.dropWhile_eq_nil_iff]
      intro x hx
      obtain ⟨q, _, rfl⟩ := List.mem_map.mp hx
      cases hq : q.arpLayer with
      | none => simp
      | some arp =>
        by_cases hc : arp.Operation ≠ ARPReply ∨ iface.HardwareAddr = arp.SourceHwAddress
        · simp [hc]
        · simp [hc]
    rw [hnil]
    simp
  · rw [appendsOf, listenerTrace, List.filterMap_append, List.filterMap_map,
      readARPCollect, readARP_foldl_eq, List.nil_append]
    have hlast : List.filterMap (fun e =>
        match e with
        | LiEv.appendEntry a => some a
        | _ => none) [LiEv.recvStop] = [] := by simp
    rw [hlast, List.append_nil]
    refine List.filterMap_congr ?_
    intro p _
    simp only [Function.comp_apply]
    cases hp : p.arpLayer with
    | none => simp [replyEntry, hp]
    | some arp =>
      by_cases hc : arp.Operation ≠ ARPReply ∨ iface.HardwareAddr = arp.SourceHwAddress
      · simp [replyEntry, hp, hc]
      · simp [replyEntry, hp, hc]

/-- C7 witness: on a concrete successful run the rendezvous precedes the
read of the table. -/
theorem C7_rendezvous_witness :
    Precedes CoEv.sendStop CoEv.readTable
      (coordTrace ⟨"eth0", [1, 2, 3, 4, 5, 6], Except.ok []⟩
        ⟨⟨10, 0, 0, 1⟩, ⟨255, 255, 255, 254⟩⟩ (fun _ => none)) :=
  (C7_rendezvous ⟨"eth0", [1, 2, 3, 4, 5, 6], Except.ok []⟩
      ⟨⟨10, 0, 0, 1⟩, ⟨255, 255, 255, 254⟩⟩ (fun _ => none) []).1
    (by rw [writeARP, show ips ⟨10, 0, 0, 1⟩ ⟨255, 255, 255, 254⟩ = [⟨10, 0, 0, 0⟩]
          from by rw [ips_eq]; decide]
        rfl)

/-- The validation loop fails exactly at the first split entry that the
host does not know, with the message of the source. -/
theorem checkIfaceNames_eq (host : List String) :
    ∀ l : List String, checkIfaceNames host l =
      (l.find? (fun n => !(decide (n ∈ host)))).map
        (fun bad => "interface " ++ bad ++ ": unkown") := by
  intro l
  induction l with
  | nil => rfl
  | cons n rest ih =>
    by_cases h : n ∈ host
    · simp [checkIfaceNames, List.find?, h, ih]
    · simp [checkIfaceNames, List.find?, h]

/-- C8: the literal "all" resolves to every host interface name in
enumeration order; any other input is comma-split, the split list is
validated left to right, success returns exactly the split list, and
failure names the first entry the host does not know. -/
theorem C8_iface_spec_resolution (host : List String) (s : String) :
    (s = "all" → IfaceToName host s = (host, none))
    ∧ (s ≠ "all" →
        (IfaceToName host s).1 = splitOnComma s
        ∧ ((∀ n ∈ splitOnComma s, n ∈ host) → (IfaceToName host s).2 = none)
        ∧ (∀ bad, (splitOnComma s).find? (fun n => !(decide (n ∈ host))) = some bad →
            (IfaceToName host s).2 =
              some ("interface " ++ bad ++ ": unkown"))) := by
  refine ⟨?_, ?_⟩
  · intro h
    simp [IfaceToName, h]
  · intro h
    refine ⟨by simp [IfaceToName, h], ?_, ?_⟩
    · intro hall
      have hfind : (splitOnComma s).find? (fun n => !(decide (n ∈ host))) = none := by
        rw [List.find?_eq_none]
        intro x hx
        simp [hall x hx]
      simp [IfaceToName, h, checkIfaceNames_eq, hfind]
    · intro bad hbad
      simp [IfaceToName, h, checkIfaceNames_eq, hbad]

/-- C8 witness: with hosts eth0 and eth1, the input "eth0,eth2" fails
naming eth2, the first unknown entry. -/
theorem C8_iface_spec_resolution_witness :
    (IfaceToName ["eth0", "eth1"] "eth0,eth2").2 =
      some ("interface " ++ "eth2" ++ ": unkown") :=
  ((C8_iface_spec_resolution ["eth0", "eth1"] "eth0,eth2").2 (by decide)).2.2
    "eth2" (by decide)

/-- C10: for any input other than "all" the returned slice is the raw
comma-split with order, duplicates and whitespace preserved; the input
with a space after the comma fails unless an interface literally named
with the leading space exists; the empty input is rejected naming the
empty entry. -/
theorem C10_no_normalization :
    (∀ (host : List String) (s : String), s ≠ "all" →
        (IfaceToName host s).1 = splitOnComma s)
    ∧ IfaceToName ["eth0", "eth1"] "eth0, eth1" =
        (["eth0", " eth1"], some "interface  eth1: unkown")
    ∧ IfaceToName ["eth0", " eth1"] "eth0, eth1" = (["eth0", " eth1"], none)
    ∧ (∀ host : List String, "" ∉ host →
        IfaceToName host "" = ([""], some ("interface " ++ "" ++ ": unkown"))) := by
  refine ⟨?_, by decide, by decide, ?_⟩
  · intro host s h
    simp [IfaceToName, h]
  · intro host h
    have hall : ("" : String) ≠ "all" := by decide
    have hsplit : splitOnComma "" = [""] := rfl
    simp [IfaceToName, hall, hsplit, checkIfaceNames, h]

/-- C10 witness: a host with no empty-named interface rejects the empty
input, naming the empty entry. -/
theorem C10_no_normalization_witness :
    IfaceToName ["eth0"] "" = ([""], some ("interface " ++ "" ++ ": unkown")) :=
  C10_no_normalization.2.2.2 ["eth0"] (by decide)
